import Mathlib

/-!
Shallow embedding of `ckanext/datagovsg_s3_resources/commands.py`
(`MigrateToS3.command` and `MigrateToS3.change_to_s3`).

Modelling choices:
* CKAN dicts are modelled as structures.  A resource field read with
  `resource['k']` (which raises `KeyError` when the key is missing) is an
  `Option`: `none` models a missing key, and reading it produces an
  escaping error (`Option String` in the result, `some detail` being the
  exception that propagates to the per-dataset `except` handler).
  `resource.get('name', '')` never raises, so `name` is a plain `String`.
* The behaviour of the external services for the run is part of the input:
  `FetchResult` is the outcome of `package_show` for one dataset name,
  `Resource.migration` is the outcome of `change_to_s3` for that resource
  (`none` = success), and `Dataset.zip_error` is the outcome of
  `upload.upload_package_zipfile_to_s3` for that dataset.
* `pkg.get('num_resources')` returning `None` (missing key) behaves like `0`
  under Python 2's `None > 0`, so `num_resources` is a `Nat`.
* Besides the mutable variables of `command` (mirrored in `RunState`), the
  engine state carries a ghost trace of the external calls actually made
  (`migrate_calls`, `zip_calls`) so that "the migration action is invoked" /
  "packaging is invoked" are observable facts.
-/

set_option maxHeartbeats 1000000
set_option linter.unreachableTactic false
set_option linter.unusedTactic false
set_option linter.unnecessarySeqFocus false

namespace S3Migration

/-- Errors that `change_to_s3` (resource_update) can raise, as discriminated
by the three `except` arms of the inner loop. -/
inductive MigError where
  | validation : MigError
  | keyError : MigError
  | other : String → MigError
deriving DecidableEq

/-- One CKAN resource dict, restricted to the keys `command` reads, plus the
oracle outcome of migrating it. -/
structure Resource where
  id : Option String
  name : String
  url_type : Option String
  format : Option String
  migration : Option MigError
deriving DecidableEq

/-- One CKAN package dict as returned by a successful `package_show`, plus
the oracle outcome of `upload_package_zipfile_to_s3` for it
(`none` = success, `some e` = the exception raised). -/
structure Dataset where
  id : String
  num_resources : Nat
  resources : List Resource
  zip_error : Option String
deriving DecidableEq

/-- Outcome of `package_show` for one dataset name. -/
inductive FetchResult where
  | fetchErr : String → FetchResult
  | fetched : Dataset → FetchResult
deriving DecidableEq

/-- The mutable variables of `MigrateToS3.command`, in source order. -/
structure RunState where
  key_errors : Nat
  validation_errors : Nat
  other_errors_list : List (String × String)
  pkg_crashes : Finset String
  pkg_crashes_w_error : List (String × String)
  blacklisted : List (String × String)
  not_blacklisted : Nat
  already_on_s3 : List String
  extensions_seen : Finset String
deriving DecidableEq

/-- The run state together with the ghost trace of external calls. -/
structure EngineState where
  agg : RunState
  migrate_calls : List Resource
  zip_calls : List String
deriving DecidableEq

/-- Python's `str.lower()`: lowercase every character (structural so that
the kernel can evaluate it on literals). -/
def strLower (s : String) : String := String.mk (s.data.map Char.toLower)

/-- Helper for `splitWs`: `cur` is the current token, reversed. -/
def splitWsAux (cur : List Char) : List Char → List String
  | [] => if cur.isEmpty then [] else [String.mk cur.reverse]
  | c :: cs =>
    if c.isWhitespace then
      if cur.isEmpty then splitWsAux [] cs
      else String.mk cur.reverse :: splitWsAux [] cs
    else splitWsAux (c :: cur) cs

/-- Python's no-argument `str.split()`: split on runs of whitespace,
dropping empty tokens. -/
def splitWs (s : String) : List String := splitWsAux [] s.data

/-- Initial values of the aggregation variables (lines 51-71 of the source). -/
def initRunState : RunState :=
  { key_errors := 0
    validation_errors := 0
    other_errors_list := []
    pkg_crashes := ∅
    pkg_crashes_w_error := []
    blacklisted := []
    not_blacklisted := 0
    already_on_s3 := []
    extensions_seen := ∅ }

/-- Initial engine state: aggregator fresh, no external calls made yet. -/
def initEngineState : EngineState :=
  { agg := initRunState, migrate_calls := [], zip_calls := [] }

/-- Body of the inner loop from the `extension = resource['format'].lower()`
line onwards (lines 88-110): reached when the already-on-S3 skip did not
fire.  Returns the updated state and `some detail` when an uncaught
exception escapes to the per-dataset handler. -/
def processResourceRest (bl : List String) (pkgId : String)
    (r : Resource) (s : EngineState) : EngineState × Option String :=
  match r.format with
  | none => (s, some "KeyError: format")
  | some fmt =>
    let extension := strLower fmt
    let s1 : EngineState :=
      { s with agg :=
        { s.agg with extensions_seen := insert extension s.agg.extensions_seen } }
    if extension ∉ bl then
      let s2 : EngineState :=
        { s1 with agg := { s1.agg with not_blacklisted := s1.agg.not_blacklisted + 1 } }
      let s3 : EngineState := { s2 with migrate_calls := s2.migrate_calls ++ [r] }
      match r.migration with
      | none => (s3, none)
      | some MigError.validation =>
        ({ s3 with agg :=
          { s3.agg with
            validation_errors := s3.agg.validation_errors + 1
            pkg_crashes := insert pkgId s3.agg.pkg_crashes } }, none)
      | some MigError.keyError =>
        ({ s3 with agg :=
          { s3.agg with
            key_errors := s3.agg.key_errors + 1
            pkg_crashes := insert pkgId s3.agg.pkg_crashes } }, none)
      | some (MigError.other detail) =>
        ({ s3 with agg :=
          { s3.agg with
            other_errors_list := s3.agg.other_errors_list ++ [(pkgId, detail)]
            pkg_crashes := insert pkgId s3.agg.pkg_crashes } }, none)
    else
      match r.id with
      | none => (s1, some "KeyError: id")
      | some resId =>
        ({ s1 with agg :=
          { s1.agg with blacklisted := s1.agg.blacklisted ++ [(resId, extension)] } }, none)

/-- One iteration of the inner resource loop (lines 81-110).  The guard
`skip_existing_s3_upload and resource['url_type'] == 's3'` short-circuits:
when the flag is false, the (possibly missing) `url_type` key is not read. -/
def processResource (skip : Bool) (bl : List String) (pkgId : String)
    (r : Resource) (s : EngineState) : EngineState × Option String :=
  match skip, r.url_type with
  | true, none => (s, some "KeyError: url_type")
  | true, some ut =>
    if ut = "s3" then
      match r.id with
      | none => (s, some "KeyError: id")
      | some resId =>
        ({ s with agg :=
          { s.agg with already_on_s3 := s.agg.already_on_s3 ++ [resId] } }, none)
    else processResourceRest bl pkgId r s
  | false, _ => processResourceRest bl pkgId r s

/-- The inner resource loop: process resources in order; an escaping
exception stops the loop, keeping the mutations already made. -/
def processResources (skip : Bool) (bl : List String) (pkgId : String) :
    List Resource → EngineState → EngineState × Option String
  | [], s => (s, none)
  | r :: rs, s =>
    match processResource skip bl pkgId r s with
    | (s1, none) => processResources skip bl pkgId rs s1
    | (s1, some e) => (s1, some e)

/-- The per-dataset `except Exception` handler (lines 113-115). -/
def recordPkgError (dsName e : String) (s : EngineState) : EngineState :=
  { s with agg :=
    { s.agg with pkg_crashes_w_error := s.agg.pkg_crashes_w_error ++ [(dsName, e)] } }

/-- One iteration of the outer dataset loop (lines 76-115): fetch the
package, run the inner loop when `num_resources > 0`, then attempt the
package zipfile upload; any escaping exception is recorded as one
`pkg_crashes_w_error` entry. -/
def processDataset (skip : Bool) (bl : List String)
    (dsName : String) (fetch : FetchResult) (s : EngineState) : EngineState :=
  match fetch with
  | FetchResult.fetchErr e => recordPkgError dsName e s
  | FetchResult.fetched pkg =>
    match (if 0 < pkg.num_resources
           then processResources skip bl pkg.id pkg.resources s
           else (s, none)) with
    | (s1, some e) => recordPkgError dsName e s1
    | (s1, none) =>
      let s2 : EngineState := { s1 with zip_calls := s1.zip_calls ++ [dsName] }
      match pkg.zip_error with
      | some e => recordPkgError dsName e s2
      | none => s2

/-- Lines 33-37: `skip_existing_s3_upload` is true unless the first CLI
argument is `force_s3`. -/
def skipFlagFromArgs (args : List String) : Bool :=
  match args with
  | [] => true
  | a :: _ => if a = "force_s3" then false else true

/-- Lines 60-61: split the configured blacklist string on whitespace and
lowercase each token. -/
def parseBlacklist (cfg : String) : List String :=
  (splitWs cfg).map strLower

/-- The outer loop starting from an arbitrary engine state. -/
def runFrom (skip : Bool) (bl : List String)
    (catalog : List (String × FetchResult)) (s : EngineState) : EngineState :=
  catalog.foldl (fun acc nf => processDataset skip bl nf.1 nf.2 acc) s

/-- The whole `MigrateToS3.command` run: CLI args, blacklist configuration
string, and the catalog (each dataset name paired with its fetch outcome). -/
def migrateCommand (args : List String) (cfg : String)
    (catalog : List (String × FetchResult)) : EngineState :=
  runFrom (skipFlagFromArgs args) (parseBlacklist cfg) catalog initEngineState

/-!
Specification-side definitions, written against the spec's vocabulary
(classification buckets, visited resources, observed extensions) and later
proved to characterise the embedded code.
-/

/-- The four classification buckets of the spec's §3 invariant. -/
inductive Classification where
  | skipped : Classification
  | excluded : Classification
  | migrated : Classification
  | failed : Classification
deriving DecidableEq

/-- Classification of one resource: skip check first, then the blacklist,
then the migration outcome.  Meaningful for resources whose processing does
not raise; missing fields default harmlessly. -/
def classify (skip : Bool) (bl : List String) (r : Resource) : Classification :=
  if skip && (r.url_type == some "s3") then Classification.skipped
  else if strLower (r.format.getD "") ∈ bl then Classification.excluded
  else
    match r.migration with
    | none => Classification.migrated
    | some _ => Classification.failed

/-- Whether the post-skip part of the loop body raises an uncaught
exception for this resource (missing `format` key, or a blacklisted
resource with a missing `id` key). -/
def restAborts (bl : List String) (r : Resource) : Bool :=
  match r.format with
  | none => true
  | some fmt => if strLower fmt ∈ bl then r.id.isNone else false

/-- Whether processing this resource raises an exception that escapes the
inner loop to the per-dataset handler. -/
def resourceAborts (skip : Bool) (bl : List String) (r : Resource) : Bool :=
  match skip, r.url_type with
  | true, none => true
  | true, some ut => if ut = "s3" then r.id.isNone else restAborts bl r
  | false, _ => restAborts bl r

/-- Whether the loop body reaches the `extensions_seen.add(extension)` line
for this resource: it must not enter the already-on-S3 skip branch (nor
crash on a missing `url_type`), and its `format` key must be present. -/
def seesExtension (skip : Bool) (r : Resource) : Bool :=
  match skip, r.url_type with
  | true, none => false
  | true, some ut => if ut = "s3" then false else r.format.isSome
  | false, _ => r.format.isSome

/-- The resources of one dataset fully processed by the inner loop: the
longest prefix in which no resource raises an escaping exception. -/
def visitedResources (skip : Bool) (bl : List String) : List Resource → List Resource
  | [] => []
  | r :: rs =>
    if resourceAborts skip bl r then [] else r :: visitedResources skip bl rs

/-- The resources of one dataset visited by the run. -/
def datasetVisited (skip : Bool) (bl : List String) : FetchResult → List Resource
  | FetchResult.fetchErr _ => []
  | FetchResult.fetched pkg =>
    if 0 < pkg.num_resources then visitedResources skip bl pkg.resources else []

/-- All resources of a catalog visited by a run with the given flag and
blacklist, in traversal order. -/
def catVisited (skip : Bool) (bl : List String)
    (catalog : List (String × FetchResult)) : List Resource :=
  catalog.foldr (fun nf acc => datasetVisited skip bl nf.2 ++ acc) []

/-- All resources visited across the run, in traversal order. -/
def runVisited (args : List String) (cfg : String)
    (catalog : List (String × FetchResult)) : List Resource :=
  catVisited (skipFlagFromArgs args) (parseBlacklist cfg) catalog

/-- The lowercased extension the loop computes for a resource. -/
def extOf (r : Resource) : String := strLower (r.format.getD "")

/-- Extensions observed by the inner loop on one dataset's resource list:
each non-aborting resource that reaches the observation step contributes its
extension; a resource whose processing aborts contributes its extension only
when the abort happens after the observation step, and ends the loop. -/
def obsExtsResources (skip : Bool) (bl : List String) : List Resource → Finset String
  | [] => ∅
  | r :: rs =>
    if resourceAborts skip bl r then
      (if seesExtension skip r then {extOf r} else ∅)
    else
      (if seesExtension skip r then insert (extOf r) (obsExtsResources skip bl rs)
       else obsExtsResources skip bl rs)

/-- Extensions observed while processing one dataset. -/
def datasetObsExts (skip : Bool) (bl : List String) : FetchResult → Finset String
  | FetchResult.fetchErr _ => ∅
  | FetchResult.fetched pkg =>
    if 0 < pkg.num_resources then obsExtsResources skip bl pkg.resources else ∅

/-- Extensions observed across a catalog with the given flag and blacklist. -/
def catObsExts (skip : Bool) (bl : List String)
    (catalog : List (String × FetchResult)) : Finset String :=
  catalog.foldr (fun nf acc => datasetObsExts skip bl nf.2 ∪ acc) ∅

/-- Extensions observed across the whole run. -/
def runObsExts (args : List String) (cfg : String)
    (catalog : List (String × FetchResult)) : Finset String :=
  catObsExts (skipFlagFromArgs args) (parseBlacklist cfg) catalog

/-- Number of resources in a list with a given classification. -/
def countClass (skip : Bool) (bl : List String) (c : Classification)
    (rs : List Resource) : Nat :=
  rs.countP (fun r => classify skip bl r == c)

/-- State `t` extends state `s`: every list/set/count of the aggregate (and
of the call trace) in `s` is preserved in `t`; nothing is ever dropped. -/
def stateExtends (s t : EngineState) : Prop :=
  (∃ l, t.agg.pkg_crashes_w_error = s.agg.pkg_crashes_w_error ++ l)
  ∧ (∃ l, t.agg.other_errors_list = s.agg.other_errors_list ++ l)
  ∧ s.agg.validation_errors ≤ t.agg.validation_errors
  ∧ s.agg.key_errors ≤ t.agg.key_errors
  ∧ s.agg.pkg_crashes ⊆ t.agg.pkg_crashes
  ∧ (∃ l, t.agg.already_on_s3 = s.agg.already_on_s3 ++ l)
  ∧ (∃ l, t.agg.blacklisted = s.agg.blacklisted ++ l)
  ∧ s.agg.not_blacklisted ≤ t.agg.not_blacklisted
  ∧ s.agg.extensions_seen ⊆ t.agg.extensions_seen
  ∧ (∃ l, t.migrate_calls = s.migrate_calls ++ l)
  ∧ (∃ l, t.zip_calls = s.zip_calls ++ l)

/-!
Concrete example inputs used by witnesses and counterexamples.
-/

/-- Resource already on S3 (`url_type == 's3'`), uppercase CSV format. -/
def exResS3 : Resource := ⟨some "r1", "r1", some "s3", some "CSV", none⟩

/-- Resource whose migration raises `ValidationError`. -/
def exResVal : Resource := ⟨some "r2", "r2", some "upload", some "pdf", some MigError.validation⟩

/-- Resource whose migration raises `KeyError`. -/
def exResKey : Resource := ⟨some "r3", "r3", some "upload", some "doc", some MigError.keyError⟩

/-- Resource whose migration raises some other exception. -/
def exResOther : Resource := ⟨some "r4", "r4", some "upload", some "xls", some (MigError.other "boom")⟩

/-- Resource that migrates successfully. -/
def exResOk : Resource := ⟨some "r5", "r5", some "upload", some "csv", none⟩

/-- Resource with an uppercase blacklistable ZIP format. -/
def exResZip : Resource := ⟨some "r6", "r6", some "upload", some "ZIP", none⟩

/-- Resource whose `format` key is missing: classification raises KeyError. -/
def exResNoFmt : Resource := ⟨some "r7", "r7", some "upload", none, none⟩

/-- One-dataset catalog containing only the already-on-S3 resource. -/
def exCatS3 : List (String × FetchResult) :=
  [("d1", FetchResult.fetched ⟨"p1", 1, [exResS3], none⟩)]

/-- One-dataset catalog containing one successfully migrating resource. -/
def exCatOk : List (String × FetchResult) :=
  [("d1", FetchResult.fetched ⟨"p1", 1, [exResOk], none⟩)]

/-!
Helper lemmas about one iteration of the inner loop.
-/

/-- Processing one resource escapes with an exception exactly when
`resourceAborts` says so. -/
lemma processResource_snd (skip : Bool) (bl : List String) (pkgId : String)
    (r : Resource) (s : EngineState) :
    ((processResource skip bl pkgId r s).2).isSome = resourceAborts skip bl r := by
  rcases r with ⟨rid, rname, ut, fmt, mig⟩
  cases skip <;> rcases ut with _ | ut <;> rcases fmt with _ | fmt <;>
    rcases rid with _ | rid <;> rcases mig with _ | mig <;> (try cases mig) <;>
    simp [processResource, processResourceRest, resourceAborts, restAborts] <;>
    split_ifs <;> simp_all

/-- A resource whose processing escapes with an exception mutates nothing
except (possibly) `extensions_seen`. -/
lemma processResource_abort (skip : Bool) (bl : List String) (pkgId : String)
    (r : Resource) (s : EngineState) (h : resourceAborts skip bl r = true) :
    (processResource skip bl pkgId r s).1 =
      ⟨{ s.agg with extensions_seen :=
           if seesExtension skip r then insert (extOf r) s.agg.extensions_seen
           else s.agg.extensions_seen },
        s.migrate_calls, s.zip_calls⟩ := by
  rcases r with ⟨rid, rname, ut, fmt, mig⟩
  cases skip <;> rcases ut with _ | ut <;> rcases fmt with _ | fmt <;>
    rcases rid with _ | rid <;> rcases mig with _ | mig <;> (try cases mig) <;>
    simp_all [processResource, processResourceRest, resourceAborts, restAborts,
      seesExtension, extOf] <;>
    split_ifs at * <;> simp_all

/-- The `extensions_seen` set after one resource: the extension is inserted
exactly when the body reaches the observation step. -/
lemma processResource_ext (skip : Bool) (bl : List String) (pkgId : String)
    (r : Resource) (s : EngineState) :
    (processResource skip bl pkgId r s).1.agg.extensions_seen =
      (if seesExtension skip r then insert (extOf r) s.agg.extensions_seen
       else s.agg.extensions_seen) := by
  rcases r with ⟨rid, rname, ut, fmt, mig⟩
  cases skip <;> rcases ut with _ | ut <;> rcases fmt with _ | fmt <;>
    rcases rid with _ | rid <;> rcases mig with _ | mig <;> (try cases mig) <;>
    simp_all [processResource, processResourceRest, seesExtension, extOf] <;>
    split_ifs at * <;> simp_all

/-- A fully processed (non-escaping) resource bumps exactly the registers of
its classification bucket. -/
lemma processResource_counts (skip : Bool) (bl : List String) (pkgId : String)
    (r : Resource) (s : EngineState) (h : resourceAborts skip bl r = false) :
    (processResource skip bl pkgId r s).2 = none
    ∧ (processResource skip bl pkgId r s).1.agg.already_on_s3.length
        = s.agg.already_on_s3.length
          + (if classify skip bl r = Classification.skipped then 1 else 0)
    ∧ (processResource skip bl pkgId r s).1.agg.blacklisted.length
        = s.agg.blacklisted.length
          + (if classify skip bl r = Classification.excluded then 1 else 0)
    ∧ (processResource skip bl pkgId r s).1.agg.not_blacklisted
        = s.agg.not_blacklisted
          + (if classify skip bl r = Classification.migrated then 1 else 0)
          + (if classify skip bl r = Classification.failed then 1 else 0)
    ∧ (processResource skip bl pkgId r s).1.agg.validation_errors
        + (processResource skip bl pkgId r s).1.agg.key_errors
        + (processResource skip bl pkgId r s).1.agg.other_errors_list.length
        = s.agg.validation_errors + s.agg.key_errors + s.agg.other_errors_list.length
          + (if classify skip bl r = Classification.failed then 1 else 0) := by
  rcases r with ⟨rid, rname, ut, fmt, mig⟩
  cases skip <;> rcases ut with _ | ut <;> rcases fmt with _ | fmt <;>
    rcases rid with _ | rid <;> rcases mig with _ | mig <;> (try cases mig) <;>
    simp_all [processResource, processResourceRest, resourceAborts, restAborts,
      classify] <;>
    (try (split_ifs at * <;> simp_all)) <;> omega

/-- The inner loop body never touches `pkg_crashes_w_error` or the zip-call
trace. -/
lemma processResource_frame (skip : Bool) (bl : List String) (pkgId : String)
    (r : Resource) (s : EngineState) :
    (processResource skip bl pkgId r s).1.agg.pkg_crashes_w_error
        = s.agg.pkg_crashes_w_error
    ∧ (processResource skip bl pkgId r s).1.zip_calls = s.zip_calls := by
  rcases r with ⟨rid, rname, ut, fmt, mig⟩
  cases skip <;> rcases ut with _ | ut <;> rcases fmt with _ | fmt <;>
    rcases rid with _ | rid <;> rcases mig with _ | mig <;> (try cases mig) <;>
    simp_all [processResource, processResourceRest] <;>
    split_ifs at * <;> simp_all

/-- The post-skip part of the loop body never touches `already_on_s3`. -/
lemma processResourceRest_s3 (bl : List String) (pkgId : String)
    (r : Resource) (s : EngineState) :
    (processResourceRest bl pkgId r s).1.agg.already_on_s3
      = s.agg.already_on_s3 := by
  rcases r with ⟨rid, rname, ut, fmt, mig⟩
  rcases fmt with _ | fmt <;> rcases rid with _ | rid <;>
    rcases mig with _ | mig <;> (try cases mig) <;>
    simp_all [processResourceRest] <;> split_ifs at * <;> simp_all

/-- With the skip check disabled (`force_s3`), no resource is ever appended
to `already_on_s3`. -/
lemma processResource_force_s3 (bl : List String) (pkgId : String)
    (r : Resource) (s : EngineState) :
    (processResource false bl pkgId r s).1.agg.already_on_s3
      = s.agg.already_on_s3 := by
  simpa [processResource] using processResourceRest_s3 bl pkgId r s

/-- One loop iteration only extends the aggregate. -/
lemma processResource_extends (skip : Bool) (bl : List String) (pkgId : String)
    (r : Resource) (s : EngineState) :
    stateExtends s (processResource skip bl pkgId r s).1 := by
  rcases r with ⟨rid, rname, ut, fmt, mig⟩
  cases skip <;> rcases ut with _ | ut <;> rcases fmt with _ | fmt <;>
    rcases rid with _ | rid <;> rcases mig with _ | mig <;> (try cases mig) <;>
    simp_all [processResource, processResourceRest, stateExtends] <;>
    split_ifs at * <;>
    simp_all [Finset.subset_insert, Finset.insert_subset_insert]

/-- Full characterisation of one iteration on a resource that reaches the
migration attempt and fails with `ValidationError`: the eligible counter and
the validation-error counter are bumped, the dataset id enters the crash
set, the call is traced, and no exception escapes. -/
lemma processResource_fail_validation (skip : Bool) (bl : List String)
    (pkgId : String) (r : Resource) (s : EngineState)
    (hab : resourceAborts skip bl r = false)
    (hc : classify skip bl r = Classification.failed)
    (hm : r.migration = some MigError.validation) :
    processResource skip bl pkgId r s =
      (⟨{ s.agg with
            validation_errors := s.agg.validation_errors + 1
            pkg_crashes := insert pkgId s.agg.pkg_crashes
            not_blacklisted := s.agg.not_blacklisted + 1
            extensions_seen := insert (extOf r) s.agg.extensions_seen },
         s.migrate_calls ++ [r], s.zip_calls⟩, none) := by
  rcases r with ⟨rid, rname, ut, fmt, mig⟩
  cases skip <;> rcases ut with _ | ut <;> rcases fmt with _ | fmt <;>
    rcases rid with _ | rid <;> rcases mig with _ | mig <;> (try cases mig) <;>
    simp_all [processResource, processResourceRest, resourceAborts, restAborts,
      classify, extOf] <;>
    split_ifs at * <;> simp_all

/-- As `processResource_fail_validation`, for `KeyError` raised by the
migration action. -/
lemma processResource_fail_key (skip : Bool) (bl : List String)
    (pkgId : String) (r : Resource) (s : EngineState)
    (hab : resourceAborts skip bl r = false)
    (hc : classify skip bl r = Classification.failed)
    (hm : r.migration = some MigError.keyError) :
    processResource skip bl pkgId r s =
      (⟨{ s.agg with
            key_errors := s.agg.key_errors + 1
            pkg_crashes := insert pkgId s.agg.pkg_crashes
            not_blacklisted := s.agg.not_blacklisted + 1
            extensions_seen := insert (extOf r) s.agg.extensions_seen },
         s.migrate_calls ++ [r], s.zip_calls⟩, none) := by
  rcases r with ⟨rid, rname, ut, fmt, mig⟩
  cases skip <;> rcases ut with _ | ut <;> rcases fmt with _ | fmt <;>
    rcases rid with _ | rid <;> rcases mig with _ | mig <;> (try cases mig) <;>
    simp_all [processResource, processResourceRest, resourceAborts, restAborts,
      classify, extOf] <;>
    split_ifs at * <;> simp_all

/-- As `processResource_fail_validation`, for any other error raised by the
migration action: the (dataset id, detail) pair is appended. -/
lemma processResource_fail_other (skip : Bool) (bl : List String)
    (pkgId : String) (r : Resource) (s : EngineState) (d : String)
    (hab : resourceAborts skip bl r = false)
    (hc : classify skip bl r = Classification.failed)
    (hm : r.migration = some (MigError.other d)) :
    processResource skip bl pkgId r s =
      (⟨{ s.agg with
            other_errors_list := s.agg.other_errors_list ++ [(pkgId, d)]
            pkg_crashes := insert pkgId s.agg.pkg_crashes
            not_blacklisted := s.agg.not_blacklisted + 1
            extensions_seen := insert (extOf r) s.agg.extensions_seen },
         s.migrate_calls ++ [r], s.zip_calls⟩, none) := by
  rcases r with ⟨rid, rname, ut, fmt, mig⟩
  cases skip <;> rcases ut with _ | ut <;> rcases fmt with _ | fmt <;>
    rcases rid with _ | rid <;> rcases mig with _ | mig <;> (try cases mig) <;>
    simp_all [processResource, processResourceRest, resourceAborts, restAborts,
      classify, extOf] <;>
    split_ifs at * <;> simp_all

/-- A visited resource that is not skipped and whose extension is
blacklisted: the migration action is not invoked, a (resource id, extension)
pair is appended to `blacklisted`, and the eligible counter is untouched. -/
lemma processResource_excluded (skip : Bool) (bl : List String)
    (pkgId : String) (r : Resource) (s : EngineState)
    (hab : resourceAborts skip bl r = false)
    (hns : classify skip bl r ≠ Classification.skipped)
    (hbl : extOf r ∈ bl) :
    processResource skip bl pkgId r s =
      (⟨{ s.agg with
            blacklisted := s.agg.blacklisted ++ [(r.id.getD "", extOf r)]
            extensions_seen := insert (extOf r) s.agg.extensions_seen },
         s.migrate_calls, s.zip_calls⟩, none) := by
  rcases r with ⟨rid, rname, ut, fmt, mig⟩
  cases skip <;> rcases ut with _ | ut <;> rcases fmt with _ | fmt <;>
    rcases rid with _ | rid <;> rcases mig with _ | mig <;> (try cases mig) <;>
    simp_all [processResource, processResourceRest, resourceAborts, restAborts,
      classify, extOf] <;>
    split_ifs at * <;> simp_all

/-- New entries of the migration-call trace come from the migrate branch:
their format key is present and their extension is not blacklisted. -/
lemma processResource_calls (skip : Bool) (bl : List String) (pkgId : String)
    (r : Resource) (s : EngineState) (x : Resource)
    (hx : x ∈ (processResource skip bl pkgId r s).1.migrate_calls) :
    x ∈ s.migrate_calls ∨ (x = r ∧ ∃ f, r.format = some f ∧ strLower f ∉ bl) := by
  rcases r with ⟨rid, rname, ut, fmt, mig⟩
  cases skip <;> rcases ut with _ | ut <;> rcases fmt with _ | fmt <;>
    rcases rid with _ | rid <;> rcases mig with _ | mig <;> (try cases mig) <;>
    simp_all [processResource, processResourceRest] <;>
    split_ifs at * <;> simp_all <;> tauto

/-!
Helper lemmas about the inner loop as a whole.
-/

/-- A non-escaping resource lets the loop continue with the next sibling. -/
lemma processResources_cons_ok (skip : Bool) (bl : List String) (pkgId : String)
    (r : Resource) (rs : List Resource) (s : EngineState)
    (h : resourceAborts skip bl r = false) :
    processResources skip bl pkgId (r :: rs) s
      = processResources skip bl pkgId rs (processResource skip bl pkgId r s).1 := by
  have hs := processResource_snd skip bl pkgId r s
  rw [h] at hs
  rcases hp : processResource skip bl pkgId r s with ⟨s1, o⟩
  rcases o with _ | e
  · simp [processResources, hp]
  · rw [hp] at hs; simp at hs

/-- An escaping resource ends the loop with its exception and the state it
left behind. -/
lemma processResources_cons_abort (skip : Bool) (bl : List String) (pkgId : String)
    (r : Resource) (rs : List Resource) (s : EngineState)
    (h : resourceAborts skip bl r = true) :
    processResources skip bl pkgId (r :: rs) s
      = ((processResource skip bl pkgId r s).1,
          (processResource skip bl pkgId r s).2) := by
  have hs := processResource_snd skip bl pkgId r s
  rw [h] at hs
  rcases hp : processResource skip bl pkgId r s with ⟨s1, o⟩
  rcases o with _ | e
  · rw [hp] at hs; simp at hs
  · simp [processResources, hp]

/-- A prefix of non-escaping resources is traversed completely, and the loop
continues on the remaining resources from the accumulated state. -/
lemma processResources_append (skip : Bool) (bl : List String) (pkgId : String)
    (rs1 rest : List Resource) (s : EngineState)
    (h : ∀ x ∈ rs1, resourceAborts skip bl x = false) :
    processResources skip bl pkgId (rs1 ++ rest) s
      = processResources skip bl pkgId rest (processResources skip bl pkgId rs1 s).1
    ∧ (processResources skip bl pkgId rs1 s).2 = none := by
  induction rs1 generalizing s with
  | nil => simp [processResources]
  | cons r rs ih =>
    have hr : resourceAborts skip bl r = false := h r (by simp)
    have hrest : ∀ x ∈ rs, resourceAborts skip bl x = false := by
      intro x hx; exact h x (by simp [hx])
    rcases ih (processResource skip bl pkgId r s).1 hrest with ⟨ih1, ih2⟩
    constructor
    · rw [List.cons_append, processResources_cons_ok skip bl pkgId r (rs ++ rest) s hr,
        ih1, processResources_cons_ok skip bl pkgId r rs s hr]
    · rw [processResources_cons_ok skip bl pkgId r rs s hr]; exact ih2

/-- The inner loop bumps each bucket register by the number of visited
resources with that classification. -/
lemma processResources_counts (skip : Bool) (bl : List String) (pkgId : String)
    (rs : List Resource) (s : EngineState) :
    (processResources skip bl pkgId rs s).1.agg.already_on_s3.length
        = s.agg.already_on_s3.length
          + countClass skip bl Classification.skipped (visitedResources skip bl rs)
    ∧ (processResources skip bl pkgId rs s).1.agg.blacklisted.length
        = s.agg.blacklisted.length
          + countClass skip bl Classification.excluded (visitedResources skip bl rs)
    ∧ (processResources skip bl pkgId rs s).1.agg.not_blacklisted
        = s.agg.not_blacklisted
          + countClass skip bl Classification.migrated (visitedResources skip bl rs)
          + countClass skip bl Classification.failed (visitedResources skip bl rs)
    ∧ (processResources skip bl pkgId rs s).1.agg.validation_errors
        + (processResources skip bl pkgId rs s).1.agg.key_errors
        + (processResources skip bl pkgId rs s).1.agg.other_errors_list.length
        = s.agg.validation_errors + s.agg.key_errors + s.agg.other_errors_list.length
          + countClass skip bl Classification.failed (visitedResources skip bl rs) := by
  induction rs generalizing s with
  | nil => simp [processResources, visitedResources, countClass]
  | cons r rs ih =>
    by_cases hr : resourceAborts skip bl r = true
    · rw [processResources_cons_abort skip bl pkgId r rs s hr]
      rw [processResource_abort skip bl pkgId r s hr]
      simp [visitedResources, hr, countClass]
    · rw [Bool.not_eq_true] at hr
      rw [processResources_cons_ok skip bl pkgId r rs s hr]
      rcases processResource_counts skip bl pkgId r s hr with ⟨-, h1, h2, h3, h4⟩
      rcases ih (processResource skip bl pkgId r s).1 with ⟨i1, i2, i3, i4⟩
      have hv : visitedResources skip bl (r :: rs)
          = r :: visitedResources skip bl rs := by
        simp [visitedResources, hr]
      rw [hv]
      have hc : ∀ c, countClass skip bl c (r :: visitedResources skip bl rs)
          = countClass skip bl c (visitedResources skip bl rs)
            + (if classify skip bl r = c then 1 else 0) := by
        intro c
        by_cases hcc : classify skip bl r = c <;>
          simp [countClass, List.countP_cons, hcc]
      refine ⟨?_, ?_, ?_, ?_⟩
      · rw [i1, h1, hc]; omega
      · rw [i2, h2, hc]; omega
      · rw [i3, h3, hc, hc]; omega
      · rw [i4, h4, hc]; omega

/-- The extensions recorded by the inner loop are exactly `obsExtsResources`. -/
lemma processResources_ext (skip : Bool) (bl : List String) (pkgId : String)
    (rs : List Resource) (s : EngineState) :
    (processResources skip bl pkgId rs s).1.agg.extensions_seen
      = s.agg.extensions_seen ∪ obsExtsResources skip bl rs := by
  induction rs generalizing s with
  | nil => simp [processResources, obsExtsResources]
  | cons r rs ih =>
    by_cases hr : resourceAborts skip bl r = true
    · rw [processResources_cons_abort skip bl pkgId r rs s hr]
      have he := processResource_ext skip bl pkgId r s
      by_cases hsee : seesExtension skip r = true <;>
        simp_all [obsExtsResources] <;>
        (ext a; simp [Finset.mem_insert, Finset.mem_union, Finset.mem_singleton]; tauto)
    · rw [Bool.not_eq_true] at hr
      rw [processResources_cons_ok skip bl pkgId r rs s hr, ih]
      have he := processResource_ext skip bl pkgId r s
      by_cases hsee : seesExtension skip r = true <;>
        simp_all [obsExtsResources, Finset.insert_union]

/-- The inner loop never touches `pkg_crashes_w_error` or the zip-call
trace. -/
lemma processResources_frame (skip : Bool) (bl : List String) (pkgId : String)
    (rs : List Resource) (s : EngineState) :
    (processResources skip bl pkgId rs s).1.agg.pkg_crashes_w_error
        = s.agg.pkg_crashes_w_error
    ∧ (processResources skip bl pkgId rs s).1.zip_calls = s.zip_calls := by
  induction rs generalizing s with
  | nil => simp [processResources]
  | cons r rs ih =>
    rcases processResource_frame skip bl pkgId r s with ⟨f1, f2⟩
    by_cases hr : resourceAborts skip bl r = true
    · rw [processResources_cons_abort skip bl pkgId r rs s hr]
      exact ⟨f1, f2⟩
    · rw [Bool.not_eq_true] at hr
      rw [processResources_cons_ok skip bl pkgId r rs s hr]
      rcases ih (processResource skip bl pkgId r s).1 with ⟨i1, i2⟩
      exact ⟨by rw [i1, f1], by rw [i2, f2]⟩

/-- With the skip check disabled, the inner loop never appends to
`already_on_s3`. -/
lemma processResources_force_s3 (bl : List String) (pkgId : String)
    (rs : List Resource) (s : EngineState) :
    (processResources false bl pkgId rs s).1.agg.already_on_s3
      = s.agg.already_on_s3 := by
  induction rs generalizing s with
  | nil => simp [processResources]
  | cons r rs ih =>
    have hf := processResource_force_s3 bl pkgId r s
    by_cases hr : resourceAborts false bl r = true
    · rw [processResources_cons_abort false bl pkgId r rs s hr]; exact hf
    · rw [Bool.not_eq_true] at hr
      rw [processResources_cons_ok false bl pkgId r rs s hr,
        ih (processResource false bl pkgId r s).1, hf]

/-- `stateExtends` is reflexive. -/
lemma stateExtends_refl (s : EngineState) : stateExtends s s := by
  refine ⟨⟨[], by simp⟩, ⟨[], by simp⟩, le_refl _, le_refl _, Finset.Subset.refl _,
    ⟨[], by simp⟩, ⟨[], by simp⟩, le_refl _, Finset.Subset.refl _,
    ⟨[], by simp⟩, ⟨[], by simp⟩⟩

/-- `stateExtends` is transitive. -/
lemma stateExtends_trans {s t u : EngineState}
    (h1 : stateExtends s t) (h2 : stateExtends t u) : stateExtends s u := by
  obtain ⟨⟨a1, e1⟩, ⟨a2, e2⟩, l3, l4, l5, ⟨a6, e6⟩, ⟨a7, e7⟩, l8, l9, ⟨a10, e10⟩,
    ⟨a11, e11⟩⟩ := h1
  obtain ⟨⟨b1, f1⟩, ⟨b2, f2⟩, m3, m4, m5, ⟨b6, f6⟩, ⟨b7, f7⟩, m8, m9, ⟨b10, f10⟩,
    ⟨b11, f11⟩⟩ := h2
  refine ⟨⟨a1 ++ b1, by simp [f1, e1]⟩, ⟨a2 ++ b2, by simp [f2, e2]⟩,
    le_trans l3 m3, le_trans l4 m4, Finset.Subset.trans l5 m5,
    ⟨a6 ++ b6, by simp [f6, e6]⟩, ⟨a7 ++ b7, by simp [f7, e7]⟩,
    le_trans l8 m8, Finset.Subset.trans l9 m9,
    ⟨a10 ++ b10, by simp [f10, e10]⟩, ⟨a11 ++ b11, by simp [f11, e11]⟩⟩

/-- The inner loop only extends the aggregate. -/
lemma processResources_extends (skip : Bool) (bl : List String) (pkgId : String)
    (rs : List Resource) (s : EngineState) :
    stateExtends s (processResources skip bl pkgId rs s).1 := by
  induction rs generalizing s with
  | nil => simp [processResources]; exact stateExtends_refl s
  | cons r rs ih =>
    have hstep := processResource_extends skip bl pkgId r s
    by_cases hr : resourceAborts skip bl r = true
    · rw [processResources_cons_abort skip bl pkgId r rs s hr]; exact hstep
    · rw [Bool.not_eq_true] at hr
      rw [processResources_cons_ok skip bl pkgId r rs s hr]
      exact stateExtends_trans hstep (ih (processResource skip bl pkgId r s).1)

/-- New migration-call-trace entries made by the inner loop all have a
present, non-blacklisted extension. -/
lemma processResources_calls (skip : Bool) (bl : List String) (pkgId : String)
    (rs : List Resource) (s : EngineState) (x : Resource)
    (hx : x ∈ (processResources skip bl pkgId rs s).1.migrate_calls) :
    x ∈ s.migrate_calls ∨ ∃ f, x.format = some f ∧ strLower f ∉ bl := by
  induction rs generalizing s with
  | nil => simp [processResources] at hx; exact Or.inl hx
  | cons r rs ih =>
    by_cases hr : resourceAborts skip bl r = true
    · rw [processResources_cons_abort skip bl pkgId r rs s hr] at hx
      rcases processResource_calls skip bl pkgId r s x hx with h | ⟨hxr, hf⟩
      · exact Or.inl h
      · subst hxr; exact Or.inr hf
    · rw [Bool.not_eq_true] at hr
      rw [processResources_cons_ok skip bl pkgId r rs s hr] at hx
      rcases ih (processResource skip bl pkgId r s).1 hx with h | h
      · rcases processResource_calls skip bl pkgId r s x h with h2 | ⟨hxr, hf⟩
        · exact Or.inl h2
        · subst hxr; exact Or.inr hf
      · exact Or.inr h

/-!
Helper lemmas about one iteration of the outer (dataset) loop.
-/

/-- Reduction of `processDataset` when the inner loop (or the skipped loop)
finishes without an escaping exception. -/
lemma processDataset_inner_none (skip : Bool) (bl : List String)
    (dsName : String) (pkg : Dataset) (s s1 : EngineState)
    (hI : (if 0 < pkg.num_resources
           then processResources skip bl pkg.id pkg.resources s
           else (s, none)) = (s1, none)) :
    processDataset skip bl dsName (FetchResult.fetched pkg) s
      = (match pkg.zip_error with
         | some e => recordPkgError dsName e
             { s1 with zip_calls := s1.zip_calls ++ [dsName] }
         | none => { s1 with zip_calls := s1.zip_calls ++ [dsName] }) := by
  simp only [processDataset]
  rw [hI]

/-- Reduction of `processDataset` when the inner loop escapes with an
exception. -/
lemma processDataset_inner_abort (skip : Bool) (bl : List String)
    (dsName : String) (pkg : Dataset) (s s1 : EngineState) (e : String)
    (hI : (if 0 < pkg.num_resources
           then processResources skip bl pkg.id pkg.resources s
           else (s, none)) = (s1, some e)) :
    processDataset skip bl dsName (FetchResult.fetched pkg) s
      = recordPkgError dsName e s1 := by
  simp only [processDataset]
  rw [hI]

/-- One outer-loop iteration bumps each bucket register by the number of
resources of this dataset visited with that classification. -/
lemma processDataset_counts (skip : Bool) (bl : List String)
    (dsName : String) (f : FetchResult) (s : EngineState) :
    (processDataset skip bl dsName f s).agg.already_on_s3.length
        = s.agg.already_on_s3.length
          + countClass skip bl Classification.skipped (datasetVisited skip bl f)
    ∧ (processDataset skip bl dsName f s).agg.blacklisted.length
        = s.agg.blacklisted.length
          + countClass skip bl Classification.excluded (datasetVisited skip bl f)
    ∧ (processDataset skip bl dsName f s).agg.not_blacklisted
        = s.agg.not_blacklisted
          + countClass skip bl Classification.migrated (datasetVisited skip bl f)
          + countClass skip bl Classification.failed (datasetVisited skip bl f)
    ∧ (processDataset skip bl dsName f s).agg.validation_errors
        + (processDataset skip bl dsName f s).agg.key_errors
        + (processDataset skip bl dsName f s).agg.other_errors_list.length
        = s.agg.validation_errors + s.agg.key_errors + s.agg.other_errors_list.length
          + countClass skip bl Classification.failed (datasetVisited skip bl f) := by
  rcases f with e | pkg
  · simp [processDataset, recordPkgError, datasetVisited, countClass]
  · by_cases hn : 0 < pkg.num_resources
    · rcases hI : processResources skip bl pkg.id pkg.resources s with ⟨s1, o⟩
      have hcounts := processResources_counts skip bl pkg.id pkg.resources s
      rw [hI] at hcounts
      rcases o with _ | e
      · rw [processDataset_inner_none skip bl dsName pkg s s1 (by rw [if_pos hn, hI])]
        rcases pkg.zip_error with _ | e <;>
          simp_all [datasetVisited, hn, recordPkgError]
      · rw [processDataset_inner_abort skip bl dsName pkg s s1 e (by rw [if_pos hn, hI])]
        simp_all [datasetVisited, hn, recordPkgError]
    · rw [processDataset_inner_none skip bl dsName pkg s s (by rw [if_neg hn])]
      rcases pkg.zip_error with _ | e <;>
        simp_all [datasetVisited, hn, recordPkgError, countClass]

/-- One outer-loop iteration adds exactly this dataset's observed extensions. -/
lemma processDataset_ext (skip : Bool) (bl : List String)
    (dsName : String) (f : FetchResult) (s : EngineState) :
    (processDataset skip bl dsName f s).agg.extensions_seen
      = s.agg.extensions_seen ∪ datasetObsExts skip bl f := by
  rcases f with e | pkg
  · simp [processDataset, recordPkgError, datasetObsExts]
  · by_cases hn : 0 < pkg.num_resources
    · rcases hI : processResources skip bl pkg.id pkg.resources s with ⟨s1, o⟩
      have hext := processResources_ext skip bl pkg.id pkg.resources s
      rw [hI] at hext
      rcases o with _ | e
      · rw [processDataset_inner_none skip bl dsName pkg s s1 (by rw [if_pos hn, hI])]
        rcases pkg.zip_error with _ | e <;>
          simp_all [datasetObsExts, hn, recordPkgError]
      · rw [processDataset_inner_abort skip bl dsName pkg s s1 e (by rw [if_pos hn, hI])]
        simp_all [datasetObsExts, hn, recordPkgError]
    · rw [processDataset_inner_none skip bl dsName pkg s s (by rw [if_neg hn])]
      rcases pkg.zip_error with _ | e <;>
        simp_all [datasetObsExts, hn, recordPkgError]

/-- With the skip check disabled, the outer loop never appends to
`already_on_s3`. -/
lemma processDataset_force_s3 (bl : List String)
    (dsName : String) (f : FetchResult) (s : EngineState) :
    (processDataset false bl dsName f s).agg.already_on_s3
      = s.agg.already_on_s3 := by
  rcases f with e | pkg
  · simp [processDataset, recordPkgError]
  · by_cases hn : 0 < pkg.num_resources
    · rcases hI : processResources false bl pkg.id pkg.resources s with ⟨s1, o⟩
      have hf := processResources_force_s3 bl pkg.id pkg.resources s
      rw [hI] at hf
      rcases o with _ | e
      · rw [processDataset_inner_none false bl dsName pkg s s1 (by rw [if_pos hn, hI])]
        rcases pkg.zip_error with _ | e <;> simp_all [recordPkgError]
      · rw [processDataset_inner_abort false bl dsName pkg s s1 e (by rw [if_pos hn, hI])]
        simp_all [recordPkgError]
    · rw [processDataset_inner_none false bl dsName pkg s s (by rw [if_neg hn])]
      rcases pkg.zip_error with _ | e <;> simp_all [recordPkgError]

/-- One outer-loop iteration only extends the aggregate. -/
lemma processDataset_extends (skip : Bool) (bl : List String)
    (dsName : String) (f : FetchResult) (s : EngineState) :
    stateExtends s (processDataset skip bl dsName f s) := by
  have hzip : ∀ t : EngineState, stateExtends t { t with zip_calls := t.zip_calls ++ [dsName] } := by
    intro t
    refine ⟨⟨[], by simp⟩, ⟨[], by simp⟩, le_refl _, le_refl _, Finset.Subset.refl _,
      ⟨[], by simp⟩, ⟨[], by simp⟩, le_refl _, Finset.Subset.refl _,
      ⟨[], by simp⟩, ⟨[dsName], by simp⟩⟩
  have hrec : ∀ (e : String) (t : EngineState), stateExtends t (recordPkgError dsName e t) := by
    intro e t
    refine ⟨⟨[(dsName, e)], by simp [recordPkgError]⟩, ⟨[], by simp [recordPkgError]⟩,
      le_refl _, le_refl _, Finset.Subset.refl _, ⟨[], by simp [recordPkgError]⟩,
      ⟨[], by simp [recordPkgError]⟩, le_refl _, Finset.Subset.refl _,
      ⟨[], by simp [recordPkgError]⟩, ⟨[], by simp [recordPkgError]⟩⟩
  rcases f with e | pkg
  · simpa [processDataset] using hrec e s
  · by_cases hn : 0 < pkg.num_resources
    · rcases hI : processResources skip bl pkg.id pkg.resources s with ⟨s1, o⟩
      have hx := processResources_extends skip bl pkg.id pkg.resources s
      rw [hI] at hx
      rcases o with _ | e
      · rw [processDataset_inner_none skip bl dsName pkg s s1 (by rw [if_pos hn, hI])]
        rcases pkg.zip_error with _ | e
        · exact stateExtends_trans hx (hzip s1)
        · exact stateExtends_trans hx (stateExtends_trans (hzip s1) (hrec e _))
      · rw [processDataset_inner_abort skip bl dsName pkg s s1 e (by rw [if_pos hn, hI])]
        exact stateExtends_trans hx (hrec e s1)
    · rw [processDataset_inner_none skip bl dsName pkg s s (by rw [if_neg hn])]
      rcases pkg.zip_error with _ | e
      · exact hzip s
      · exact stateExtends_trans (hzip s) (hrec e _)

/-- New migration-call-trace entries of one outer-loop iteration all have a
present, non-blacklisted extension. -/
lemma processDataset_calls (skip : Bool) (bl : List String)
    (dsName : String) (f : FetchResult) (s : EngineState) (x : Resource)
    (hx : x ∈ (processDataset skip bl dsName f s).migrate_calls) :
    x ∈ s.migrate_calls ∨ ∃ fm, x.format = some fm ∧ strLower fm ∉ bl := by
  rcases f with e | pkg
  · simp [processDataset, recordPkgError] at hx; exact Or.inl hx
  · by_cases hn : 0 < pkg.num_resources
    · rcases hI : processResources skip bl pkg.id pkg.resources s with ⟨s1, o⟩
      have hcalls := processResources_calls skip bl pkg.id pkg.resources s x
      rw [hI] at hcalls
      rcases o with _ | e
      · rw [processDataset_inner_none skip bl dsName pkg s s1 (by rw [if_pos hn, hI])] at hx
        rcases hz : pkg.zip_error with _ | e <;> simp_all [recordPkgError]
      · rw [processDataset_inner_abort skip bl dsName pkg s s1 e (by rw [if_pos hn, hI])] at hx
        simp_all [recordPkgError]
    · rw [processDataset_inner_none skip bl dsName pkg s s (by rw [if_neg hn])] at hx
      rcases hz : pkg.zip_error with _ | e <;> simp_all [recordPkgError]

/-- If every resource of a fetched dataset processes without an escaping
exception, the packaging call is made exactly once. -/
lemma processDataset_zip (skip : Bool) (bl : List String)
    (dsName : String) (pkg : Dataset) (s : EngineState)
    (h : ∀ x ∈ pkg.resources, resourceAborts skip bl x = false) :
    (processDataset skip bl dsName (FetchResult.fetched pkg) s).zip_calls
      = s.zip_calls ++ [dsName] := by
  by_cases hn : 0 < pkg.num_resources
  · rcases hI : processResources skip bl pkg.id pkg.resources s with ⟨s1, o⟩
    have hdone := (processResources_append skip bl pkg.id pkg.resources [] s h).2
    rw [hI] at hdone
    simp at hdone
    subst hdone
    have hframe := (processResources_frame skip bl pkg.id pkg.resources s).2
    rw [hI] at hframe
    rw [processDataset_inner_none skip bl dsName pkg s s1 (by rw [if_pos hn, hI])]
    rcases pkg.zip_error with _ | e <;> simp_all [recordPkgError]
  · rw [processDataset_inner_none skip bl dsName pkg s s (by rw [if_neg hn])]
    rcases pkg.zip_error with _ | e <;> simp_all [recordPkgError]

/-!
Helper lemmas about the outer loop as a whole.
-/

/-- The outer loop processes every dataset: appending one more dataset name
to the catalog processes it from the state the previous ones produced. -/
lemma runFrom_append (skip : Bool) (bl : List String)
    (cat : List (String × FetchResult)) (nf : String × FetchResult)
    (s : EngineState) :
    runFrom skip bl (cat ++ [nf]) s
      = processDataset skip bl nf.1 nf.2 (runFrom skip bl cat s) := by
  simp [runFrom, List.foldl_append]

/-- Cons form of the outer loop. -/
lemma runFrom_cons (skip : Bool) (bl : List String)
    (nf : String × FetchResult) (cat : List (String × FetchResult))
    (s : EngineState) :
    runFrom skip bl (nf :: cat) s
      = runFrom skip bl cat (processDataset skip bl nf.1 nf.2 s) := by
  simp [runFrom]

/-- The whole outer loop bumps each bucket register by the number of visited
resources with that classification. -/
lemma runFrom_counts (skip : Bool) (bl : List String)
    (cat : List (String × FetchResult)) (s : EngineState) :
    (runFrom skip bl cat s).agg.already_on_s3.length
        = s.agg.already_on_s3.length
          + countClass skip bl Classification.skipped (catVisited skip bl cat)
    ∧ (runFrom skip bl cat s).agg.blacklisted.length
        = s.agg.blacklisted.length
          + countClass skip bl Classification.excluded (catVisited skip bl cat)
    ∧ (runFrom skip bl cat s).agg.not_blacklisted
        = s.agg.not_blacklisted
          + countClass skip bl Classification.migrated (catVisited skip bl cat)
          + countClass skip bl Classification.failed (catVisited skip bl cat)
    ∧ (runFrom skip bl cat s).agg.validation_errors
        + (runFrom skip bl cat s).agg.key_errors
        + (runFrom skip bl cat s).agg.other_errors_list.length
        = s.agg.validation_errors + s.agg.key_errors + s.agg.other_errors_list.length
          + countClass skip bl Classification.failed (catVisited skip bl cat) := by
  induction cat generalizing s with
  | nil => simp [runFrom, catVisited, countClass]
  | cons nf cat ih =>
    rw [runFrom_cons]
    rcases processDataset_counts skip bl nf.1 nf.2 s with ⟨h1, h2, h3, h4⟩
    rcases ih (processDataset skip bl nf.1 nf.2 s) with ⟨i1, i2, i3, i4⟩
    have hcat : catVisited skip bl (nf :: cat)
        = datasetVisited skip bl nf.2 ++ catVisited skip bl cat := by
      simp [catVisited]
    have hcc : ∀ c, countClass skip bl c (catVisited skip bl (nf :: cat))
        = countClass skip bl c (datasetVisited skip bl nf.2)
          + countClass skip bl c (catVisited skip bl cat) := by
      intro c; rw [hcat]; simp [countClass, List.countP_append]
    refine ⟨?_, ?_, ?_, ?_⟩
    · rw [i1, h1, hcc]; omega
    · rw [i2, h2, hcc]; omega
    · rw [i3, h3, hcc, hcc]; omega
    · rw [i4, h4, hcc]; omega

/-- The whole outer loop adds exactly the observed extensions. -/
lemma runFrom_ext (skip : Bool) (bl : List String)
    (cat : List (String × FetchResult)) (s : EngineState) :
    (runFrom skip bl cat s).agg.extensions_seen
      = s.agg.extensions_seen ∪ catObsExts skip bl cat := by
  induction cat generalizing s with
  | nil => simp [runFrom, catObsExts]
  | cons nf cat ih =>
    rw [runFrom_cons, ih, processDataset_ext]
    simp [catObsExts, Finset.union_assoc]

/-- With the skip check disabled, the whole run never appends to
`already_on_s3`. -/
lemma runFrom_force_s3 (bl : List String)
    (cat : List (String × FetchResult)) (s : EngineState) :
    (runFrom false bl cat s).agg.already_on_s3 = s.agg.already_on_s3 := by
  induction cat generalizing s with
  | nil => simp [runFrom]
  | cons nf cat ih =>
    rw [runFrom_cons, ih, processDataset_force_s3]

/-- The whole outer loop only extends the aggregate. -/
lemma runFrom_extends (skip : Bool) (bl : List String)
    (cat : List (String × FetchResult)) (s : EngineState) :
    stateExtends s (runFrom skip bl cat s) := by
  induction cat generalizing s with
  | nil => simp [runFrom]; exact stateExtends_refl s
  | cons nf cat ih =>
    rw [runFrom_cons]
    exact stateExtends_trans (processDataset_extends skip bl nf.1 nf.2 s)
      (ih (processDataset skip bl nf.1 nf.2 s))

/-- All migration-call-trace entries of the whole run have a present,
non-blacklisted extension. -/
lemma runFrom_calls (skip : Bool) (bl : List String)
    (cat : List (String × FetchResult)) (s : EngineState) (x : Resource)
    (hx : x ∈ (runFrom skip bl cat s).migrate_calls) :
    x ∈ s.migrate_calls ∨ ∃ fm, x.format = some fm ∧ strLower fm ∉ bl := by
  induction cat generalizing s with
  | nil => simp [runFrom] at hx; exact Or.inl hx
  | cons nf cat ih =>
    rw [runFrom_cons] at hx
    rcases ih (processDataset skip bl nf.1 nf.2 s) hx with h | h
    · exact processDataset_calls skip bl nf.1 nf.2 s x h
    · exact Or.inr h

/-- Every fetch failure of the catalog ends up recorded (dataset name and
error detail) in `pkg_crashes_w_error`. -/
lemma runFrom_mem_fetchErr (skip : Bool) (bl : List String)
    (cat : List (String × FetchResult)) (s : EngineState)
    (dsName e : String) (hmem : (dsName, FetchResult.fetchErr e) ∈ cat) :
    (dsName, e) ∈ (runFrom skip bl cat s).agg.pkg_crashes_w_error := by
  induction cat generalizing s with
  | nil => simp at hmem
  | cons nf cat ih =>
    rw [runFrom_cons]
    rcases List.mem_cons.mp hmem with h | h
    · subst h
      obtain ⟨⟨l, hl⟩, -⟩ := runFrom_extends skip bl cat
        (processDataset skip bl dsName (FetchResult.fetchErr e) s)
      rw [hl]
      simp [processDataset, recordPkgError]
    · exact ih (processDataset skip bl nf.1 nf.2 s) h

/-- The four classification buckets are mutually exclusive and jointly
exhaustive: their counts always sum to the length of the list. -/
lemma countClass_partition (skip : Bool) (bl : List String)
    (rs : List Resource) :
    countClass skip bl Classification.skipped rs
      + countClass skip bl Classification.excluded rs
      + countClass skip bl Classification.migrated rs
      + countClass skip bl Classification.failed rs = rs.length := by
  induction rs with
  | nil => simp [countClass]
  | cons r rs ih =>
    rcases hc : classify skip bl r <;>
      simp_all [countClass, List.countP_cons, hc] <;> omega

/-- For a resource that does not escape, the observation step is reached
exactly when the resource is not classified skipped-already-migrated. -/
lemma seesExtension_iff (skip : Bool) (bl : List String) (r : Resource)
    (hab : resourceAborts skip bl r = false) :
    seesExtension skip r = true ↔ classify skip bl r ≠ Classification.skipped := by
  rcases r with ⟨rid, rname, ut, fmt, mig⟩
  cases skip <;> rcases ut with _ | ut <;> rcases fmt with _ | fmt <;>
    rcases rid with _ | rid <;> rcases mig with _ | mig <;> (try cases mig) <;>
    simp_all [resourceAborts, restAborts, seesExtension, classify] <;>
    split_ifs at * <;> simp_all

/-- On escape-free resource lists, the observed extensions are exactly the
lowercased extensions of the non-skipped resources. -/
lemma obsExts_no_abort (skip : Bool) (bl : List String) (rs : List Resource)
    (h : ∀ x ∈ rs, resourceAborts skip bl x = false) :
    obsExtsResources skip bl rs
      = ((rs.filter
            (fun x => ! (classify skip bl x == Classification.skipped))).map extOf).toFinset := by
  induction rs with
  | nil => simp [obsExtsResources]
  | cons r rs ih =>
    have hr : resourceAborts skip bl r = false := h r (by simp)
    have hrest : ∀ x ∈ rs, resourceAborts skip bl x = false := by
      intro x hx; exact h x (by simp [hx])
    by_cases hc : classify skip bl r = Classification.skipped
    · have hsee : seesExtension skip r = false := by
        rcases hfs : seesExtension skip r with _ | _
        · rfl
        · exact absurd hc ((seesExtension_iff skip bl r hr).mp hfs)
      simp [obsExtsResources, hr, hsee, List.filter_cons, hc, ih hrest]
    · have hsee : seesExtension skip r = true := by
        rcases hfs : seesExtension skip r with _ | _
        · exact absurd hc (by
            intro hcc
            exact absurd ((seesExtension_iff skip bl r hr).mpr hcc) (by simp [hfs]))
        · rfl
      simp [obsExtsResources, hr, hsee, List.filter_cons, hc, ih hrest]

/-- With an empty blacklist no resource is ever classified excluded. -/
lemma classify_nil_not_excluded (skip : Bool) (r : Resource) :
    classify skip [] r ≠ Classification.excluded := by
  rcases r with ⟨rid, rname, ut, fmt, mig⟩
  rcases mig with _ | mig <;> (try cases mig) <;>
    simp [classify] <;> split_ifs <;> simp_all

/-- With the skip flag off no resource is ever classified skipped. -/
lemma classify_false_not_skipped (bl : List String) (r : Resource) :
    classify false bl r ≠ Classification.skipped := by
  rcases r with ⟨rid, rname, ut, fmt, mig⟩
  rcases mig with _ | mig <;> (try cases mig) <;>
    simp [classify] <;> split_ifs <;> simp_all

/-!
Claim theorems.
-/

/-- C2: every resource visited during traversal is classified into exactly
one of the four buckets (skipped-already-migrated, excluded-by-filetype,
migrated-successfully, migration-failed); the buckets are disjoint and
exhaustive, the run's registers count them exactly, and skipped plus
excluded plus migrated plus failed equals the total number of visited
resources. -/
theorem C2_partition (args : List String) (cfg : String)
    (cat : List (String × FetchResult)) :
    (migrateCommand args cfg cat).agg.already_on_s3.length
        = countClass (skipFlagFromArgs args) (parseBlacklist cfg)
            Classification.skipped (runVisited args cfg cat)
    ∧ (migrateCommand args cfg cat).agg.blacklisted.length
        = countClass (skipFlagFromArgs args) (parseBlacklist cfg)
            Classification.excluded (runVisited args cfg cat)
    ∧ (migrateCommand args cfg cat).agg.not_blacklisted
        = countClass (skipFlagFromArgs args) (parseBlacklist cfg)
            Classification.migrated (runVisited args cfg cat)
          + countClass (skipFlagFromArgs args) (parseBlacklist cfg)
              Classification.failed (runVisited args cfg cat)
    ∧ (migrateCommand args cfg cat).agg.validation_errors
        + (migrateCommand args cfg cat).agg.key_errors
        + (migrateCommand args cfg cat).agg.other_errors_list.length
        = countClass (skipFlagFromArgs args) (parseBlacklist cfg)
            Classification.failed (runVisited args cfg cat)
    ∧ countClass (skipFlagFromArgs args) (parseBlacklist cfg)
          Classification.skipped (runVisited args cfg cat)
        + countClass (skipFlagFromArgs args) (parseBlacklist cfg)
            Classification.excluded (runVisited args cfg cat)
        + countClass (skipFlagFromArgs args) (parseBlacklist cfg)
            Classification.migrated (runVisited args cfg cat)
        + countClass (skipFlagFromArgs args) (parseBlacklist cfg)
            Classification.failed (runVisited args cfg cat)
        = (runVisited args cfg cat).length
    ∧ (migrateCommand args cfg cat).agg.already_on_s3.length
        + (migrateCommand args cfg cat).agg.blacklisted.length
        + (migrateCommand args cfg cat).agg.not_blacklisted
        = (runVisited args cfg cat).length := by
  obtain ⟨h1, h2, h3, h4⟩ :=
    runFrom_counts (skipFlagFromArgs args) (parseBlacklist cfg) cat initEngineState
  have hp := countClass_partition (skipFlagFromArgs args) (parseBlacklist cfg)
    (catVisited (skipFlagFromArgs args) (parseBlacklist cfg) cat)
  have e1 : initEngineState.agg.already_on_s3.length = 0 := rfl
  have e2 : initEngineState.agg.blacklisted.length = 0 := rfl
  have e3 : initEngineState.agg.not_blacklisted = 0 := rfl
  have e4 : initEngineState.agg.validation_errors = 0 := rfl
  have e5 : initEngineState.agg.key_errors = 0 := rfl
  have e6 : initEngineState.agg.other_errors_list.length = 0 := rfl
  rw [e1] at h1
  rw [e2] at h2
  rw [e3] at h3
  rw [e4, e5, e6] at h4
  simp only [migrateCommand, runVisited]
  refine ⟨by omega, by omega, by omega, by omega, hp, by omega⟩

/-- C1 counterexample: a resource skipped as already-on-S3 is visited, yet
its lowercased extension is not recorded in the extensions-seen set (the
`continue` in the skip branch happens before the observation step), so the
set does not contain the extensions of all visited resources. -/
theorem C1_counterexample :
    exResS3 ∈ runVisited [] "" exCatS3
    ∧ extOf exResS3 = "csv"
    ∧ "csv" ∉ (migrateCommand [] "" exCatS3).agg.extensions_seen := by
  decide

/-- C1 (amended): the extensions-seen set equals the set of distinct
lowercased extensions of the resources that reach the observation step:
every visited resource except those classified skipped-already-migrated
(whose branch continues before the observation), plus a dataset-aborting
resource when its escape happens after the observation step.  On
escape-free lists this is exactly the extension set of the non-skipped
visited resources. -/
theorem C1_amended (args : List String) (cfg : String)
    (cat : List (String × FetchResult)) :
    (migrateCommand args cfg cat).agg.extensions_seen = runObsExts args cfg cat
    ∧ (∀ skip bl r, resourceAborts skip bl r = false →
        classify skip bl r ≠ Classification.skipped → seesExtension skip r = true)
    ∧ (∀ skip bl rs, (∀ x ∈ rs, resourceAborts skip bl x = false) →
        obsExtsResources skip bl rs
          = ((rs.filter
                (fun x => ! (classify skip bl x == Classification.skipped))).map
              extOf).toFinset) := by
  refine ⟨?_, ?_, ?_⟩
  · have h := runFrom_ext (skipFlagFromArgs args) (parseBlacklist cfg) cat initEngineState
    simp only [migrateCommand, runObsExts]
    rw [h]
    simp [initEngineState, initRunState]
  · intro skip bl r hab hc
    exact (seesExtension_iff skip bl r hab).mpr hc
  · intro skip bl rs h
    exact obsExts_no_abort skip bl rs h

/-- Witness for the amended C1 at concrete inputs. -/
theorem C1_amended_witness :
    (migrateCommand [] "" exCatOk).agg.extensions_seen = runObsExts [] "" exCatOk
    ∧ obsExtsResources true [] [exResOk]
        = (([exResOk].filter
              (fun x => ! (classify true [] x == Classification.skipped))).map
            extOf).toFinset :=
  ⟨(C1_amended [] "" exCatOk).1,
   (C1_amended [] "" exCatOk).2.2 true [] [exResOk] (by decide)⟩

/-- C5: in force mode (first CLI argument `force_s3`) the already-migrated
skip check is disabled: no resource is ever classified skipped-already-
migrated and the already-on-S3 list stays empty, even for resources whose
`url_type` says they are already in object storage. -/
theorem C5_force_mode (extra : List String) (cfg : String)
    (cat : List (String × FetchResult)) :
    (migrateCommand ("force_s3" :: extra) cfg cat).agg.already_on_s3 = []
    ∧ skipFlagFromArgs ("force_s3" :: extra) = false
    ∧ (∀ bl r, classify false bl r ≠ Classification.skipped)
    ∧ countClass (skipFlagFromArgs ("force_s3" :: extra)) (parseBlacklist cfg)
        Classification.skipped (runVisited ("force_s3" :: extra) cfg cat) = 0 := by
  have hsk : skipFlagFromArgs ("force_s3" :: extra) = false := by
    simp [skipFlagFromArgs]
  refine ⟨?_, hsk, fun bl r => classify_false_not_skipped bl r, ?_⟩
  · have h := runFrom_force_s3 (parseBlacklist cfg) cat initEngineState
    simp only [migrateCommand, hsk]
    rw [h]
    rfl
  · rw [hsk]
    simp only [countClass]
    rw [List.countP_eq_zero]
    intro r hr
    simp [classify_false_not_skipped]

/-- C8: the exclusion set is the whitespace-split, lowercased configuration
string; the decision compares the lowercased resource format against it, so
it is insensitive to the case of the resource format; the empty
configuration yields an empty exclusion set under which nothing is ever
excluded. -/
theorem C8_blacklist_parsing :
    parseBlacklist "" = []
    ∧ parseBlacklist "CSV  Zip\tpdf" = ["csv", "zip", "pdf"]
    ∧ (∀ skip bl pkgId s i n ut m f g, strLower f = strLower g →
        (processResource skip bl pkgId ⟨i, n, ut, some f, m⟩ s).1.agg
            = (processResource skip bl pkgId ⟨i, n, ut, some g, m⟩ s).1.agg
        ∧ (processResource skip bl pkgId ⟨i, n, ut, some f, m⟩ s).2
            = (processResource skip bl pkgId ⟨i, n, ut, some g, m⟩ s).2)
    ∧ (∀ args cat, (migrateCommand args "" cat).agg.blacklisted = []) := by
  refine ⟨by decide, by decide, ?_, ?_⟩
  · intro skip bl pkgId s i n ut m f g hfg
    cases skip <;> rcases ut with _ | ut <;> rcases m with _ | m <;>
      (try cases m) <;> rcases i with _ | i <;>
      simp [processResource, processResourceRest, hfg] <;>
      split_ifs <;> simp_all
  · intro args cat
    have hbl : parseBlacklist "" = [] := by decide
    obtain ⟨-, h2, -, -⟩ :=
      runFrom_counts (skipFlagFromArgs args) (parseBlacklist "") cat initEngineState
    have hzero : countClass (skipFlagFromArgs args) (parseBlacklist "")
        Classification.excluded
        (catVisited (skipFlagFromArgs args) (parseBlacklist "") cat) = 0 := by
      simp only [countClass]
      rw [List.countP_eq_zero]
      intro r hr
      rw [hbl]
      simp [classify_nil_not_excluded]
    rw [hzero] at h2
    have e2 : initEngineState.agg.blacklisted.length = 0 := rfl
    rw [e2] at h2
    simp only [migrateCommand]
    exact List.length_eq_zero.mp (by omega)

/-- Witness for C8 at concrete inputs: the blacklist decision does not
depend on the case of the resource format. -/
theorem C8_witness :
    (processResource true ["csv"] "p1" ⟨some "r1", "r1", some "upload", some "CSV", none⟩
        initEngineState).1.agg
      = (processResource true ["csv"] "p1" ⟨some "r1", "r1", some "upload", some "csV", none⟩
          initEngineState).1.agg :=
  (C8_blacklist_parsing.2.2.1 true ["csv"] "p1" initEngineState (some "r1") "r1"
    (some "upload") none "CSV" "csV" (by decide)).1

/-- C6: a visited resource that is not skipped and whose lowercased
extension is in the exclusion set is never passed to the migration action:
a (resource id, extension) record is appended to the excluded list, the
eligible counter is untouched, and (globally) every resource ever passed to
the migration action has a present, non-blacklisted extension. -/
theorem C6_blacklist_exclusion :
    (∀ args cfg cat x, x ∈ (migrateCommand args cfg cat).migrate_calls →
        ∃ fm, x.format = some fm ∧ strLower fm ∉ parseBlacklist cfg)
    ∧ (∀ skip bl pkgId r s, resourceAborts skip bl r = false →
        classify skip bl r ≠ Classification.skipped →
        extOf r ∈ bl →
        processResource skip bl pkgId r s
          = (⟨{ s.agg with
                  blacklisted := s.agg.blacklisted ++ [(r.id.getD "", extOf r)]
                  extensions_seen := insert (extOf r) s.agg.extensions_seen },
              s.migrate_calls, s.zip_calls⟩, none)) := by
  constructor
  · intro args cfg cat x hx
    rcases runFrom_calls (skipFlagFromArgs args) (parseBlacklist cfg) cat
        initEngineState x hx with h | h
    · simp [initEngineState] at h
    · exact h
  · intro skip bl pkgId r s hab hns hbl
    exact processResource_excluded skip bl pkgId r s hab hns hbl

/-- Witness for C6 at concrete inputs: the uppercase-ZIP resource under
blacklist `{zip}` is recorded as excluded without a migration call. -/
theorem C6_witness :
    processResource true ["zip"] "p1" exResZip initEngineState
      = (⟨{ initEngineState.agg with
              blacklisted := initEngineState.agg.blacklisted
                ++ [(exResZip.id.getD "", extOf exResZip)]
              extensions_seen := insert (extOf exResZip)
                initEngineState.agg.extensions_seen },
          initEngineState.migrate_calls, initEngineState.zip_calls⟩, none) :=
  C6_blacklist_exclusion.2 true ["zip"] "p1" exResZip initEngineState
    (by decide) (by decide) (by decide)

/-- C3: a resource classified Migrate whose migration fails has exactly the
corresponding error register bumped (validation / key / other, the latter
appending the (dataset id, detail) pair), the dataset id added to the
crashed-dataset set, no escaping exception (so the loop continues with the
next sibling), and archive packaging is still attempted for the dataset
afterwards. -/
theorem C3_resource_failure_containment :
    (∀ skip bl pkgId r s, resourceAborts skip bl r = false →
      classify skip bl r = Classification.failed →
      ((processResource skip bl pkgId r s).2 = none
       ∧ (r.migration = some MigError.validation →
            processResource skip bl pkgId r s
              = (⟨{ s.agg with
                      validation_errors := s.agg.validation_errors + 1
                      pkg_crashes := insert pkgId s.agg.pkg_crashes
                      not_blacklisted := s.agg.not_blacklisted + 1
                      extensions_seen := insert (extOf r) s.agg.extensions_seen },
                  s.migrate_calls ++ [r], s.zip_calls⟩, none))
       ∧ (r.migration = some MigError.keyError →
            processResource skip bl pkgId r s
              = (⟨{ s.agg with
                      key_errors := s.agg.key_errors + 1
                      pkg_crashes := insert pkgId s.agg.pkg_crashes
                      not_blacklisted := s.agg.not_blacklisted + 1
                      extensions_seen := insert (extOf r) s.agg.extensions_seen },
                  s.migrate_calls ++ [r], s.zip_calls⟩, none))
       ∧ (∀ d, r.migration = some (MigError.other d) →
            processResource skip bl pkgId r s
              = (⟨{ s.agg with
                      other_errors_list := s.agg.other_errors_list ++ [(pkgId, d)]
                      pkg_crashes := insert pkgId s.agg.pkg_crashes
                      not_blacklisted := s.agg.not_blacklisted + 1
                      extensions_seen := insert (extOf r) s.agg.extensions_seen },
                  s.migrate_calls ++ [r], s.zip_calls⟩, none))
       ∧ (∀ rs, processResources skip bl pkgId (r :: rs) s
            = processResources skip bl pkgId rs (processResource skip bl pkgId r s).1)))
    ∧ (∀ skip bl dsName pkg s,
        (∀ x ∈ pkg.resources, resourceAborts skip bl x = false) →
        (processDataset skip bl dsName (FetchResult.fetched pkg) s).zip_calls
          = s.zip_calls ++ [dsName]) := by
  constructor
  · intro skip bl pkgId r s hab hc
    refine ⟨?_, ?_, ?_, ?_, ?_⟩
    · have hs := processResource_snd skip bl pkgId r s
      rw [hab] at hs
      rcases ho : (processResource skip bl pkgId r s).2 with _ | e
      · rfl
      · rw [ho] at hs; simp at hs
    · intro hm
      exact processResource_fail_validation skip bl pkgId r s hab hc hm
    · intro hm
      exact processResource_fail_key skip bl pkgId r s hab hc hm
    · intro d hm
      exact processResource_fail_other skip bl pkgId r s d hab hc hm
    · intro rs
      exact processResources_cons_ok skip bl pkgId r rs s hab
  · intro skip bl dsName pkg s h
    exact processDataset_zip skip bl dsName pkg s h

/-- Witness for C3 at concrete inputs: a validation-failing resource bumps
the validation register, the loop continues, and packaging is attempted. -/
theorem C3_witness :
    processResource true [] "p1" exResVal initEngineState
      = (⟨{ initEngineState.agg with
              validation_errors := initEngineState.agg.validation_errors + 1
              pkg_crashes := insert "p1" initEngineState.agg.pkg_crashes
              not_blacklisted := initEngineState.agg.not_blacklisted + 1
              extensions_seen := insert (extOf exResVal)
                initEngineState.agg.extensions_seen },
          initEngineState.migrate_calls ++ [exResVal], initEngineState.zip_calls⟩, none)
    ∧ (processDataset true [] "d1" (FetchResult.fetched ⟨"p1", 1, [exResVal], none⟩)
        initEngineState).zip_calls = initEngineState.zip_calls ++ ["d1"] :=
  ⟨(C3_resource_failure_containment.1 true [] "p1" exResVal initEngineState
      (by decide) (by decide)).2.1 (by decide),
   C3_resource_failure_containment.2 true [] "d1" ⟨"p1", 1, [exResVal], none⟩
     initEngineState (by decide)⟩

/-- C4: a dataset whose fetch fails gets exactly one dataset-level error
record (name, detail) and nothing else -- no resource-level record, no
packaging call; the same single-record containment applies to an escaping
inner-loop exception and to a packaging failure; and the run proceeds to
the next dataset in every case. -/
theorem C4_dataset_failure_containment :
    (∀ skip bl dsName e s,
       processDataset skip bl dsName (FetchResult.fetchErr e) s
         = { s with agg :=
             { s.agg with pkg_crashes_w_error :=
                 s.agg.pkg_crashes_w_error ++ [(dsName, e)] } })
    ∧ (∀ skip bl dsName pkg s e,
        0 < pkg.num_resources →
        (processResources skip bl pkg.id pkg.resources s).2 = some e →
        (processDataset skip bl dsName (FetchResult.fetched pkg) s
           = recordPkgError dsName e
               (processResources skip bl pkg.id pkg.resources s).1
         ∧ (processDataset skip bl dsName (FetchResult.fetched pkg) s).zip_calls
             = s.zip_calls))
    ∧ (∀ skip bl dsName pkg s s1 e,
        (if 0 < pkg.num_resources
         then processResources skip bl pkg.id pkg.resources s
         else (s, none)) = (s1, none) →
        pkg.zip_error = some e →
        processDataset skip bl dsName (FetchResult.fetched pkg) s
          = recordPkgError dsName e
              { s1 with zip_calls := s1.zip_calls ++ [dsName] })
    ∧ (∀ args cfg cat nf,
        migrateCommand args cfg (cat ++ [nf])
          = processDataset (skipFlagFromArgs args) (parseBlacklist cfg) nf.1 nf.2
              (migrateCommand args cfg cat)) := by
  refine ⟨?_, ?_, ?_, ?_⟩
  · intro skip bl dsName e s
    rfl
  · intro skip bl dsName pkg s e hn he
    rcases hI : processResources skip bl pkg.id pkg.resources s with ⟨s1, o⟩
    rw [hI] at he
    simp at he
    subst he
    have heq := processDataset_inner_abort skip bl dsName pkg s s1 e
      (by rw [if_pos hn, hI])
    constructor
    · rw [heq]
    · rw [heq]
      have hframe := (processResources_frame skip bl pkg.id pkg.resources s).2
      rw [hI] at hframe
      simpa [recordPkgError] using hframe
  · intro skip bl dsName pkg s s1 e hI hz
    rw [processDataset_inner_none skip bl dsName pkg s s1 hI, hz]
  · intro args cfg cat nf
    simp only [migrateCommand]
    exact runFrom_append (skipFlagFromArgs args) (parseBlacklist cfg) cat nf
      initEngineState

/-- Witness for C4 at concrete inputs: a dataset whose only resource
escapes during classification is recorded once at dataset level, with no
packaging call. -/
theorem C4_witness :
    processDataset true [] "d1" (FetchResult.fetched ⟨"p1", 1, [exResNoFmt], none⟩)
        initEngineState
      = recordPkgError "d1" "KeyError: format"
          (processResources true [] "p1" [exResNoFmt] initEngineState).1
    ∧ (processDataset true [] "d1" (FetchResult.fetched ⟨"p1", 1, [exResNoFmt], none⟩)
        initEngineState).zip_calls = initEngineState.zip_calls :=
  C4_dataset_failure_containment.2.1 true [] "d1" ⟨"p1", 1, [exResNoFmt], none⟩
    initEngineState "KeyError: format" (by decide) (by decide)

/-- C10: for every fetched dataset, archive packaging is invoked exactly
once even when the dataset has zero resources -- the resource-count guard
skips only the inner loop, not the packaging call. -/
theorem C10_packaging_zero_resources :
    (∀ skip bl dsName pid nr z s,
        (processDataset skip bl dsName (FetchResult.fetched ⟨pid, nr, [], z⟩) s).zip_calls
          = s.zip_calls ++ [dsName])
    ∧ (∀ skip bl dsName pkg s,
        (∀ x ∈ pkg.resources, resourceAborts skip bl x = false) →
        (processDataset skip bl dsName (FetchResult.fetched pkg) s).zip_calls
          = s.zip_calls ++ [dsName]) := by
  constructor
  · intro skip bl dsName pid nr z s
    exact processDataset_zip skip bl dsName ⟨pid, nr, [], z⟩ s (by simp)
  · intro skip bl dsName pkg s h
    exact processDataset_zip skip bl dsName pkg s h

/-- Witness for C10 at concrete inputs. -/
theorem C10_witness :
    (processDataset true [] "d1" (FetchResult.fetched ⟨"p1", 1, [exResOk], none⟩)
        initEngineState).zip_calls = initEngineState.zip_calls ++ ["d1"] :=
  C10_packaging_zero_resources.2 true [] "d1" ⟨"p1", 1, [exResOk], none⟩
    initEngineState (by decide)

/-- C9: a key-lookup failure raised while classifying a resource (reading
its `url_type`, `format` or `id` keys) escapes the inner loop: the
key-error register is NOT bumped, the remaining sibling resources are never
processed (the result does not depend on them), packaging is not invoked,
and exactly one dataset-level error record is appended instead. -/
theorem C9_classification_escape (skip : Bool) (bl : List String)
    (dsName pid : String) (nr : Nat) (zerr : Option String) (s : EngineState)
    (rs1 : List Resource) (r : Resource) (rs2 : List Resource)
    (hpre : ∀ x ∈ rs1, resourceAborts skip bl x = false)
    (habr : resourceAborts skip bl r = true)
    (hn : 0 < nr) :
    ∃ e,
      (processResource skip bl pid r (processResources skip bl pid rs1 s).1).2 = some e
      ∧ processDataset skip bl dsName
            (FetchResult.fetched ⟨pid, nr, rs1 ++ r :: rs2, zerr⟩) s
          = recordPkgError dsName e
              (processResource skip bl pid r (processResources skip bl pid rs1 s).1).1
      ∧ (processResource skip bl pid r
            (processResources skip bl pid rs1 s).1).1.agg.key_errors
          = (processResources skip bl pid rs1 s).1.agg.key_errors
      ∧ (processDataset skip bl dsName
            (FetchResult.fetched ⟨pid, nr, rs1 ++ r :: rs2, zerr⟩) s).zip_calls
          = s.zip_calls
      ∧ (processDataset skip bl dsName
            (FetchResult.fetched ⟨pid, nr, rs1 ++ r :: rs2, zerr⟩) s).agg.pkg_crashes_w_error
          = s.agg.pkg_crashes_w_error ++ [(dsName, e)]
      ∧ (∀ rs2b, processDataset skip bl dsName
              (FetchResult.fetched ⟨pid, nr, rs1 ++ r :: rs2b, zerr⟩) s
            = processDataset skip bl dsName
                (FetchResult.fetched ⟨pid, nr, rs1 ++ r :: rs2, zerr⟩) s) := by
  obtain ⟨happ, -⟩ := processResources_append skip bl pid rs1 (r :: rs2) s hpre
  have habort := processResources_cons_abort skip bl pid r rs2
    (processResources skip bl pid rs1 s).1 habr
  have hsnd := processResource_snd skip bl pid r (processResources skip bl pid rs1 s).1
  rw [habr] at hsnd
  rcases ho : (processResource skip bl pid r (processResources skip bl pid rs1 s).1).2
    with _ | e
  · rw [ho] at hsnd; simp at hsnd
  · have hpair : processResources skip bl pid (rs1 ++ r :: rs2) s
        = ((processResource skip bl pid r (processResources skip bl pid rs1 s).1).1,
            some e) := by
      rw [happ, habort, ho]
    have heq := processDataset_inner_abort skip bl dsName ⟨pid, nr, rs1 ++ r :: rs2, zerr⟩
      s (processResource skip bl pid r (processResources skip bl pid rs1 s).1).1 e
      (by rw [if_pos hn]; exact hpair)
    have habframe := processResource_abort skip bl pid r
      (processResources skip bl pid rs1 s).1 habr
    have hfr1 := processResource_frame skip bl pid r (processResources skip bl pid rs1 s).1
    have hfr2 := processResources_frame skip bl pid rs1 s
    refine ⟨e, rfl, heq, ?_, ?_, ?_, ?_⟩
    · rw [habframe]
    · rw [heq]
      simp only [recordPkgError]
      rw [habframe]
      exact hfr2.2
    · rw [heq]
      simp only [recordPkgError]
      rw [hfr1.1, hfr2.1]
    · intro rs2b
      obtain ⟨happ2, -⟩ := processResources_append skip bl pid rs1 (r :: rs2b) s hpre
      have habort2 := processResources_cons_abort skip bl pid r rs2b
        (processResources skip bl pid rs1 s).1 habr
      have hpair2 : processResources skip bl pid (rs1 ++ r :: rs2b) s
          = ((processResource skip bl pid r (processResources skip bl pid rs1 s).1).1,
              some e) := by
        rw [happ2, habort2, ho]
      have heq2 := processDataset_inner_abort skip bl dsName
        ⟨pid, nr, rs1 ++ r :: rs2b, zerr⟩ s
        (processResource skip bl pid r (processResources skip bl pid rs1 s).1).1 e
        (by rw [if_pos hn]; exact hpair2)
      rw [heq2, heq]

/-- Witness for C9 at concrete inputs: the missing-format resource aborts
its dataset without bumping the key-error register or calling packaging. -/
theorem C9_witness :
    (processDataset true [] "d1"
        (FetchResult.fetched ⟨"p1", 2, [exResOk, exResNoFmt], none⟩)
        initEngineState).zip_calls = initEngineState.zip_calls
    ∧ (processDataset true [] "d1"
        (FetchResult.fetched ⟨"p1", 2, [exResOk, exResNoFmt], none⟩)
        initEngineState).agg.key_errors = 0 := by
  obtain ⟨e, -, heq, hkey, hzip, -, -⟩ := C9_classification_escape true [] "d1" "p1" 2
    none initEngineState [exResOk] exResNoFmt [] (by decide) (by decide) (by decide)
  simp only [List.singleton_append] at heq hzip
  refine ⟨hzip, ?_⟩
  rw [heq]
  simp only [recordPkgError]
  rw [hkey]
  have h0 : (processResources true [] "p1" [exResOk] initEngineState).1.agg.key_errors
      = 0 := by decide
  exact h0

/-- C7: the run survives every behaviour of the external operations: every
dataset of the catalog is processed (appending one more dataset always
processes it from the accumulated state), each step only extends the
aggregate (no record, count or trace entry is ever dropped), and every
fetch failure is recorded in the final summary. -/
theorem C7_run_always_completes :
    (∀ args cfg cat nf,
        migrateCommand args cfg (cat ++ [nf])
          = processDataset (skipFlagFromArgs args) (parseBlacklist cfg) nf.1 nf.2
              (migrateCommand args cfg cat))
    ∧ (∀ skip bl dsName f s, stateExtends s (processDataset skip bl dsName f s))
    ∧ (∀ args cfg cat dsName e,
        (dsName, FetchResult.fetchErr e) ∈ cat →
        (dsName, e) ∈ (migrateCommand args cfg cat).agg.pkg_crashes_w_error) := by
  refine ⟨?_, ?_, ?_⟩
  · intro args cfg cat nf
    simp only [migrateCommand]
    exact runFrom_append (skipFlagFromArgs args) (parseBlacklist cfg) cat nf
      initEngineState
  · intro skip bl dsName f s
    exact processDataset_extends skip bl dsName f s
  · intro args cfg cat dsName e hmem
    exact runFrom_mem_fetchErr (skipFlagFromArgs args) (parseBlacklist cfg) cat
      initEngineState dsName e hmem

/-- Witness for C7 at concrete inputs: a failing fetch is recorded in the
final summary. -/
theorem C7_witness :
    ("dX", "boom") ∈ (migrateCommand [] ""
        [("dX", FetchResult.fetchErr "boom")]).agg.pkg_crashes_w_error :=
  C7_run_always_completes.2.2 [] "" [("dX", FetchResult.fetchErr "boom")] "dX" "boom"
    (by decide)

end S3Migration
